import Mathlib

/-
Verification of the async step scheduler ("sequencer") in
src/packages/utils/src/promise/sequence.ts.

The class `Sequence` runs an ordered list of asynchronous steps one at a
time on the JS event loop.  We embed it as a deterministic small-step
machine: the mutable instance fields become a `SeqState`, and every
deferred continuation the source creates (the `setTimeout(run)` in the
constructor, the scheduled empty-queue "end" notification, the
promise-chain microtasks that invoke a step and then settle it, the
inter-step `setTimeout(next)` and the suspend resume timer) becomes a
`Task` in a FIFO queue.  Event listeners are embedded as the finite
handler actions the aggregate combinators actually install (stopping the
sequence and settling an outer promise), and ghost fields (`log`,
`invoked`, `tick`) record the observable behaviour: emitted events, which
step functions were really called, and a clock for the `time` stamps.
-/

set_option autoImplicit false

namespace Sequencer

/-- JS values as far as the sequencer inspects them (it never does: step
return payloads and failure reasons flow through the engine opaquely). -/
inductive JSValue where
  | undef
  | num (n : Int)
  | str (s : String)
deriving DecidableEq, Repr

/-- Structure `SequenceResult` (sequence.ts lines 7-13): one history record.
`status` is 1 for success, 0 for failure; `index` is the cursor at which
the step ran; exactly one of `value`/`reason` is populated; `time` is the
completion timestamp (our machine clock). -/
structure SequenceResult where
  status : Nat
  index : Int
  value : Option JSValue
  reason : Option JSValue
  time : Nat
deriving DecidableEq, Repr

/-- Constant `Sequence.SUCCEEDED` (line 73). -/
def SUCCEEDED : Nat := 1

/-- Constant `Sequence.FAILED` (line 74). -/
def FAILED : Nat := 0

/-- What a step function can do when invoked: return a value (or an
awaitable resolving to it), throw synchronously, or return an awaitable
that rejects.  The engine's try/catch plus `isPromise` coercion (lines
217-224) collapses these into a settled outcome. -/
inductive StepRet where
  | ok (v : JSValue)
  | throwSync (e : JSValue)
  | rejectAsync (e : JSValue)

/-- A `SequenceStep` (line 28): called with the previous result record
(`this.results[this.results.length - 1]`, undefined when the history is
empty), the current index, and the full history (line 218). -/
def Step := Option SequenceResult → Int → List SequenceResult → StepRet

/-- The settled outcome of one step after the engine's coercion. -/
inductive StepOutcome where
  | ok (v : JSValue)
  | err (e : JSValue)
deriving DecidableEq, Repr

/-- The try/catch + promise coercion of lines 217-224: a synchronous
throw becomes a rejected promise, so both failure shapes settle as
`err`. -/
def coerceRet : StepRet → StepOutcome
  | .ok v => .ok v
  | .throwSync e => .err e
  | .rejectAsync e => .err e

/-- The mutable instance fields of `Sequence` (lines 78-87).
`suspendTimeout` is true while a resume timer is pending (`clearTimeout`
sets it false and makes the queued timer task inert); `suspendGen`
distinguishes a newly scheduled resume timer from an earlier cleared one.
`promiseVal` is the settled value of `this.promise`, the engine's
continuation chain: `Except.ok none` for the initial `Promise.resolve()`,
`Except.ok (some r)` after a step settles with record `r`; the chain has
no rejection path past the `catch` of line 238. -/
structure SeqState where
  running : Bool
  suspended : Bool
  suspendTimeout : Bool
  suspendGen : Nat
  muteEndIfEmpty : Bool
  interval : Nat
  index : Int
  steps : List Step
  results : List SequenceResult
  busy : Bool
  promiseVal : Except JSValue (Option SequenceResult)

/-- Lookup `this.steps[i]` with JS array semantics: out-of-range (including
negative) indices yield undefined. -/
def stepAt (steps : List Step) (i : Int) : Option Step :=
  if 0 ≤ i then steps.get? i.toNat else none

/-- The three event kinds of the notification channel (line 33). -/
inductive SeqEvent where
  | success (r : SequenceResult)
  | failed (r : SequenceResult)
  | endEv (results : List SequenceResult)
deriving DecidableEq, Repr

/-- The actions an installed listener may take on the machine: the three
combinators' listeners only stop the sequence and settle the outer
promise with the current history. -/
inductive HAct where
  | stopSeq
  | resolveOuter
  | rejectOuter
deriving DecidableEq, Repr

/-- Listener actions per event kind, run in registration order. -/
structure Handlers where
  onSuccess : List HAct
  onFailed : List HAct
  onEnd : List HAct

/-- The aggregate promise returned by `all`/`chain`/`any`: absent for a
plain sequence, otherwise pending until first settled (a promise settles
at most once). -/
inductive Outer where
  | noOuter
  | pending
  | resolved (rs : List SequenceResult)
  | rejected (rs : List SequenceResult)
deriving DecidableEq, Repr

/-- The deferred continuations of the source, in one FIFO task queue:
`runCall` is the constructor's `setTimeout(() => this.run(), 0)` (line
130); `endEmpty` a scheduled empty-queue end notification (lines 136-144
and 198); `invokeStep` the `this.promise.then` microtask that calls the
step at the cursor (lines 214-224); `settle o` the settling of that
step's promise with outcome `o` and the attached continuations (lines
226-261); `advance` the inter-step `setTimeout(() => this.running &&
this.next(true), interval)` (lines 256-258); `resumeTimer g` the suspend
resume timer of generation `g` (lines 293-296). -/
inductive Task where
  | runCall
  | endEmpty
  | invokeStep
  | settle (o : StepOutcome)
  | advance
  | resumeTimer (g : Nat)
deriving DecidableEq, Repr

/-- The whole system: sequence state, installed listeners, the outer
aggregate promise, the task queue, and ghost observation state (`log` of
emitted events, `invoked` indices at which a step function was actually
called, `tick` clock). -/
structure Machine where
  seq : SeqState
  handlers : Handlers
  outer : Outer
  tasks : List Task
  log : List SeqEvent
  invoked : List Int
  tick : Nat

/-- Enqueue a deferred continuation at the back of the FIFO queue. -/
def pushTask (t : Task) (m : Machine) : Machine :=
  { m with tasks := m.tasks ++ [t] }

/-- Method `stop()` (lines 277-284): clears `running`, cancels a pending resume
timer, clears `suspended`.  It touches neither history, cursor, steps,
nor `busy`. -/
def stopSeq (s : SeqState) : SeqState :=
  { s with running := false, suspendTimeout := false, suspended := false }

/-- Reset `Sequence.createConfig()` applied by `clear()` (lines 92-101, 174-177):
resets results, index, steps, busy and the promise chain.  It does NOT
touch `running`, `suspended` or `suspendTimeout` — a pending resume timer
survives `clear()`. -/
def clearSeq (s : SeqState) : SeqState :=
  { s with results := [], index := 0, steps := [], busy := false,
           promiseVal := .ok none }

/-- Method `go(n)` (lines 166-169): no-op when the argument is undefined,
otherwise `this.index = Math.min(n, this.steps.length)` — an upper clamp
only, negative targets are stored as-is. -/
def goSeq (n : Option Int) (s : SeqState) : SeqState :=
  match n with
  | none => s
  | some k => { s with index := min k (s.steps.length : Int) }

/-- Apply one listener action.  Settling actions are no-ops once the
outer promise is settled (first settle wins, as for a JS promise). -/
def applyHAct (m : Machine) (a : HAct) : Machine :=
  match a with
  | .stopSeq => { m with seq := stopSeq m.seq }
  | .resolveOuter =>
      match m.outer with
      | .pending => { m with outer := .resolved m.seq.results }
      | _ => m
  | .rejectOuter =>
      match m.outer with
      | .pending => { m with outer := .rejected m.seq.results }
      | _ => m

/-- Emission `this.emit(ev, ...)`: record the event, then run the installed
listeners for its kind in order (synchronous delivery). -/
def emit (ev : SeqEvent) (m : Machine) : Machine :=
  let m1 := { m with log := m.log ++ [ev] }
  let acts :=
    match ev with
    | .success _ => m1.handlers.onSuccess
    | .failed _ => m1.handlers.onFailed
    | .endEv _ => m1.handlers.onEnd
  acts.foldl applyHAct m1

/-- What a `next()` call hands back to its caller: a rejected promise
carrying a `SequenceError` (`errno` 2 reentrancy of lines 184-192,
`errno` 1 "no more steps" of lines 203-210), the already in-flight chain
(line 194), an immediately resolved promise for an empty queue (line
200), or the freshly extended chain (line 214). -/
inductive NextRet where
  | rejectedError (errno : Nat)
  | currentChain
  | resolvedEmpty
  | newChain
deriving DecidableEq, Repr

/-- Method `next(inner)` (lines 183-263) up to the point where control returns
to the caller: the guards run synchronously; starting a step marks the
engine busy and defers the invocation to the promise chain
(`invokeStep`). -/
def nextCall (inner : Bool) (m : Machine) : Machine × NextRet :=
  if !inner && m.seq.running then
    (m, .rejectedError 2)
  else if m.seq.busy || m.seq.suspended then
    (m, .currentChain)
  else if m.seq.steps.length == 0 then
    (if !m.seq.muteEndIfEmpty then pushTask .endEmpty m else m, .resolvedEmpty)
  else if (stepAt m.seq.steps m.seq.index).isNone then
    (m, .rejectedError 1)
  else
    (pushTask .invokeStep { m with seq := { m.seq with busy := true } }, .newChain)

/-- Method `run()` (lines 268-272): idempotent; otherwise flips `running` and
triggers advancement. -/
def runCallOp (m : Machine) : Machine :=
  if m.seq.running then m
  else (nextCall true { m with seq := { m.seq with running := true } }).1

/-- Method `append(steps)` (lines 150-160): remembers whether the cursor had
already exhausted the queue, pushes the new steps at the tail in order,
and wakes the engine when it is running and was exhausted. -/
def appendSteps (new : List Step) (m : Machine) : Machine :=
  let dead : Bool := (m.seq.steps.length : Int) ≤ m.seq.index
  let m1 := { m with seq := { m.seq with steps := m.seq.steps ++ new } }
  if m1.seq.running && dead then (nextCall true m1).1 else m1

/-- Method `suspend(duration)` (lines 290-297): sets `suspended`, cancels any
previously scheduled resume timer (generation bump) and schedules a new
one. -/
def suspendOp (m : Machine) : Machine :=
  let g := m.seq.suspendGen + 1
  pushTask (.resumeTimer g)
    { m with seq := { m.seq with suspended := true, suspendTimeout := true,
                                 suspendGen := g } }

/-- Method `stop()` on the machine. -/
def stopM (m : Machine) : Machine :=
  { m with seq := stopSeq m.seq }

/-- Method `clear()` on the machine. -/
def clearM (m : Machine) : Machine :=
  { m with seq := clearSeq m.seq }

/-- Method `go(n)` on the machine. -/
def goM (n : Option Int) (m : Machine) : Machine :=
  { m with seq := goSeq n m.seq }

/-- Process one dequeued task.  `settle o` is the whole continuation of
lines 226-261: build the result record, push it, emit the per-step event
(running its listeners synchronously), then advance the cursor, clear
`busy`, and either emit `end` (no step at the new cursor — note: no
`running` check here) or schedule the next advancement, which itself
checks `running` when it fires. -/
def runTask (m0 : Machine) (t : Task) : Machine :=
  let m := { m0 with tick := m0.tick + 1 }
  match t with
  | .runCall => runCallOp m
  | .endEmpty => emit (.endEv m.seq.results) m
  | .advance => if m.seq.running then (nextCall true m).1 else m
  | .resumeTimer g =>
      if m.seq.suspendTimeout && m.seq.suspendGen == g then
        let m1 := { m with seq := { m.seq with suspended := false,
                                               suspendTimeout := false } }
        if m1.seq.running then (nextCall true m1).1 else m1
      else m
  | .invokeStep =>
      match stepAt m.seq.steps m.seq.index with
      | none =>
          pushTask (.settle (.ok .undef)) m
      | some f =>
          let ret := f m.seq.results.getLast? m.seq.index m.seq.results
          pushTask (.settle (coerceRet ret))
            { m with invoked := m.invoked ++ [m.seq.index] }
  | .settle o =>
      let r : SequenceResult :=
        match o with
        | .ok v => { status := SUCCEEDED, index := m.seq.index,
                     value := some v, reason := none, time := m.tick }
        | .err e => { status := FAILED, index := m.seq.index,
                      value := none, reason := some e, time := m.tick }
      let m1 := { m with seq := { m.seq with results := m.seq.results ++ [r],
                                             promiseVal := .ok (some r) } }
      let m2 :=
        match o with
        | .ok _ => emit (.success r) m1
        | .err _ => emit (.failed r) m1
      let m3 := { m2 with seq := { m2.seq with index := m2.seq.index + 1,
                                               busy := false } }
      if (stepAt m3.seq.steps m3.seq.index).isNone then
        emit (.endEv m3.seq.results) m3
      else
        pushTask .advance m3

/-- Drive the event loop: repeatedly dequeue and process the front task,
for at most `fuel` tasks. -/
def drain : Nat → Machine → Machine
  | 0, m => m
  | fuel + 1, m =>
      match m.tasks with
      | [] => m
      | t :: rest => drain fuel (runTask { m with tasks := rest } t)

/-- Options record `SequenceOptions` (lines 18-23). -/
structure SequenceOptions where
  emitEndIfEmpty : Option Bool
  muteEndIfEmpty : Option Bool
  interval : Option Nat
  autoRun : Option Bool

/-- The constructor (lines 108-131), with a given listener installation
and outer promise.  Faithful to the source: the instance mute flag is set
from `!!options.emitEndIfEmpty` (line 115) — the `muteEndIfEmpty` option
is never read; a non-empty step list is appended (with `running` still
false); an empty one schedules the deferred end notification unless the
instance flag mutes it; and unless `autoRun` is literally false a
deferred `run()` is scheduled last. -/
def mkMachine (steps : List Step) (options : SequenceOptions)
    (hs : Handlers) (outer : Outer) : Machine :=
  let s0 : SeqState :=
    { running := false, suspended := false, suspendTimeout := false,
      suspendGen := 0,
      muteEndIfEmpty := options.emitEndIfEmpty.getD false,
      interval := options.interval.getD 0,
      index := 0, steps := [], results := [], busy := false,
      promiseVal := .ok none }
  let m0 : Machine :=
    { seq := s0, handlers := hs, outer := outer, tasks := [], log := [],
      invoked := [], tick := 0 }
  let m1 :=
    if steps.length ≠ 0 then appendSteps steps m0
    else if !s0.muteEndIfEmpty then pushTask .endEmpty m0
    else m0
  if options.autoRun ≠ some false then pushTask .runCall m1 else m1

/-- No installed listeners: a plain sequence. -/
def noHandlers : Handlers := ⟨[], [], []⟩

/-- Default options: every field absent. -/
def defaultOptions : SequenceOptions := ⟨none, none, none, none⟩

/-- A plain sequence with default options. -/
def mkSeq (steps : List Step) : Machine :=
  mkMachine steps defaultOptions noHandlers .noOuter

/-- The listeners `Sequence.all` installs (lines 310-316): on `failed`,
stop the sequence then reject the outer promise with the history; on
`end`, resolve it with the history. -/
def allHandlers : Handlers :=
  { onSuccess := [], onFailed := [.stopSeq, .rejectOuter],
    onEnd := [.resolveOuter] }

/-- The listeners `Sequence.any` installs (lines 346-354): on `success`,
resolve the outer promise with the history then stop the sequence; on
`end`, reject it with the history. -/
def anyHandlers : Handlers :=
  { onSuccess := [.resolveOuter, .stopSeq], onFailed := [],
    onEnd := [.rejectOuter] }

/-- What a combinator returns: an immediately settled promise (the empty
input short-circuits before any sequence is built) or a live machine
whose outer promise is pending. -/
inductive CombRet where
  | immediate (o : Outer)
  | live (m : Machine)

/-- The machine `Sequence.all` builds for non-empty input (line 308):
options `{ interval, muteEndIfEmpty: true }` — which the constructor's
line 115 then ignores in favour of the absent `emitEndIfEmpty`. -/
def allMachine (steps : List Step) (interval : Option Nat) : Machine :=
  mkMachine steps ⟨none, some true, interval, none⟩ allHandlers .pending

/-- Combinator `Sequence.all` (lines 302-317): empty input resolves immediately
with an empty history; otherwise run a sequence under `allHandlers`. -/
def allComb (steps : List Step) (interval : Option Nat) : CombRet :=
  if steps.length = 0 then .immediate (.resolved [])
  else .live (allMachine steps interval)

/-- The machine `Sequence.any` builds for non-empty input (line 344). -/
def anyMachine (steps : List Step) (interval : Option Nat) : Machine :=
  mkMachine steps ⟨none, some true, interval, none⟩ anyHandlers .pending

/-- Combinator `Sequence.any` (lines 338-355): empty input rejects immediately;
otherwise run a sequence under `anyHandlers`. -/
def anyComb (steps : List Step) (interval : Option Nat) : CombRet :=
  if steps.length = 0 then .immediate (.rejected [])
  else .live (anyMachine steps interval)

/-- A step that ignores its arguments and returns a fixed outcome. -/
def constStep (r : StepRet) : Step := fun _ _ _ => r

/-- The quiescence invariant of the spec: the history length equals the
cursor. -/
def lenCursorInv (s : SeqState) : Prop :=
  (s.results.length : Int) = s.index

/-- A sequence whose single step has completed and whose cursor was then
rewound to 0 by `go(0)`: quiescent, with one history record. -/
def c1Rewound : Machine :=
  goM (some 0) (drain 6 (mkSeq [constStep (.ok (.num 1))]))

/-- A two-step sequence whose first step throws synchronously. -/
def c2Throw (e v2 : JSValue) : Machine :=
  mkSeq [constStep (.throwSync e), constStep (.ok v2)]

/-- The same two-step sequence with the failure as a rejected awaitable. -/
def c2Reject (e v2 : JSValue) : Machine :=
  mkSeq [constStep (.rejectAsync e), constStep (.ok v2)]

/-- The failed record both C2 scenarios produce at index 0. -/
def c2FailRec (e : JSValue) : SequenceResult :=
  ⟨FAILED, 0, none, some e, 3⟩

/-- The success record both C2 scenarios produce at index 1. -/
def c2OkRec (v2 : JSValue) : SequenceResult :=
  ⟨SUCCEEDED, 1, some v2, none, 6⟩

/-- The `all` scenario steps: s1 succeeds, s2 rejects, s3 would succeed. -/
def c3Steps (v1 e2 v3 : JSValue) : List Step :=
  [constStep (.ok v1), constStep (.rejectAsync e2), constStep (.ok v3)]

/-- The `all` scenario machine run to completion. -/
def c3Final (v1 e2 v3 : JSValue) : Machine :=
  drain 12 (allMachine (c3Steps v1 e2 v3) none)

/-- First record of the `all` scenario. -/
def c3Rec1 (v1 : JSValue) : SequenceResult := ⟨SUCCEEDED, 0, some v1, none, 3⟩

/-- Second record of the `all` scenario. -/
def c3Rec2 (e2 : JSValue) : SequenceResult := ⟨FAILED, 1, none, some e2, 6⟩

/-- The `any` scenario: f1 rejects, f2 succeeds, f3 would succeed. -/
def c4Final (e1 v2 v3 : JSValue) : Machine :=
  drain 12 (anyMachine [constStep (.rejectAsync e1), constStep (.ok v2),
                        constStep (.ok v3)] none)

/-- First record of the `any` scenario. -/
def c4Rec1 (e1 : JSValue) : SequenceResult := ⟨FAILED, 0, none, some e1, 3⟩

/-- Second record of the `any` scenario. -/
def c4Rec2 (v2 : JSValue) : SequenceResult := ⟨SUCCEEDED, 1, some v2, none, 6⟩

/-- The `any` no-success scenario: both steps reject, `end` fires. -/
def c4NoSuccess (e1 e2 : JSValue) : Machine :=
  drain 12 (anyMachine [constStep (.rejectAsync e1),
                        constStep (.rejectAsync e2)] none)

/-- A two-step sequence stopped while its first step is in flight (the
first two tasks are the deferred `run()` and the step invocation; the
step's settlement is still pending when `stop()` runs). -/
def c6Stopped (v w : JSValue) : Machine :=
  stopM (drain 2 (mkSeq [constStep (.ok v), constStep (.ok w)]))

/-- The stopped machine after the in-flight step settles. -/
def c6Final (v w : JSValue) : Machine :=
  drain 10 (c6Stopped v w)

/-- The record the in-flight step settles with after `stop()`. -/
def c6Rec (v : JSValue) : SequenceResult := ⟨SUCCEEDED, 0, some v, none, 3⟩

/-- A suspended sequence that is then cleared: the resume timer is still
pending afterwards. -/
def c8Cleared : Machine :=
  clearM (suspendOp (mkSeq [constStep (.ok (.num 1))]))

/-- A running machine (the deferred `run()` of a one-step sequence has
fired). -/
def c9Running : Machine :=
  drain 1 (mkSeq [constStep (.ok (.num 1))])

/-- A one-step sequence run to completion: still running, cursor at the
end of the queue, task queue empty. -/
def c10Quiescent (v : JSValue) : Machine :=
  drain 6 (mkSeq [constStep (.ok v)])

/-- The exhausted running sequence right after a second step is
appended. -/
def c10Appended (v w : JSValue) : Machine :=
  appendSteps [constStep (.ok w)] (c10Quiescent v)

/-- The appended sequence driven to completion — with no further `run()`
call. -/
def c10Final (v w : JSValue) : Machine :=
  drain 6 (c10Appended v w)

/-- The record produced by the appended step. -/
def c10Rec (w : JSValue) : SequenceResult := ⟨SUCCEEDED, 1, some w, none, 5⟩

theorem applyHAct_seq_results (m : Machine) (a : HAct) :
    (applyHAct m a).seq.results = m.seq.results := by
  cases a with
  | stopSeq => rfl
  | resolveOuter => unfold applyHAct; cases m.outer <;> rfl
  | rejectOuter => unfold applyHAct; cases m.outer <;> rfl

theorem applyHAct_seq_index (m : Machine) (a : HAct) :
    (applyHAct m a).seq.index = m.seq.index := by
  cases a with
  | stopSeq => rfl
  | resolveOuter => unfold applyHAct; cases m.outer <;> rfl
  | rejectOuter => unfold applyHAct; cases m.outer <;> rfl

theorem foldl_applyHAct_seq_results (acts : List HAct) (m : Machine) :
    (acts.foldl applyHAct m).seq.results = m.seq.results := by
  induction acts generalizing m with
  | nil => rfl
  | cons a rest ih => rw [List.foldl_cons, ih, applyHAct_seq_results]

theorem foldl_applyHAct_seq_index (acts : List HAct) (m : Machine) :
    (acts.foldl applyHAct m).seq.index = m.seq.index := by
  induction acts generalizing m with
  | nil => rfl
  | cons a rest ih => rw [List.foldl_cons, ih, applyHAct_seq_index]

theorem emit_seq_results (ev : SeqEvent) (m : Machine) :
    (emit ev m).seq.results = m.seq.results := by
  unfold emit
  rw [foldl_applyHAct_seq_results]

theorem emit_seq_index (ev : SeqEvent) (m : Machine) :
    (emit ev m).seq.index = m.seq.index := by
  unfold emit
  rw [foldl_applyHAct_seq_index]

theorem nextCall_fst_seq_results (inner : Bool) (m : Machine) :
    ((nextCall inner m).1).seq.results = m.seq.results := by
  unfold nextCall
  split_ifs <;> rfl

theorem nextCall_fst_seq_index (inner : Bool) (m : Machine) :
    ((nextCall inner m).1).seq.index = m.seq.index := by
  unfold nextCall
  split_ifs <;> rfl

theorem nextCall_fst_seq_steps (inner : Bool) (m : Machine) :
    ((nextCall inner m).1).seq.steps = m.seq.steps := by
  unfold nextCall
  split_ifs <;> rfl

theorem pushTask_seq (t : Task) (m : Machine) : (pushTask t m).seq = m.seq :=
  rfl

theorem appendSteps_seq_results (new : List Step) (m : Machine) :
    (appendSteps new m).seq.results = m.seq.results := by
  simp only [appendSteps]
  split
  · rw [nextCall_fst_seq_results]
  · rfl

theorem appendSteps_seq_index (new : List Step) (m : Machine) :
    (appendSteps new m).seq.index = m.seq.index := by
  simp only [appendSteps]
  split
  · rw [nextCall_fst_seq_index]
  · rfl

theorem runTask_settle_len_index (m : Machine) (o : StepOutcome) :
    (runTask m (.settle o)).seq.results.length = m.seq.results.length + 1 ∧
    (runTask m (.settle o)).seq.index = m.seq.index + 1 := by
  simp only [runTask]
  cases o <;>
  · constructor
    · split
      · rw [emit_seq_results, emit_seq_results]
        simp
      · rw [pushTask_seq, emit_seq_results]
        simp
    · split
      · rw [emit_seq_index, emit_seq_index]
      · rw [pushTask_seq, emit_seq_index]

theorem runTask_preserves_lenCursorInv (m : Machine) (t : Task)
    (h : lenCursorInv m.seq) : lenCursorInv (runTask m t).seq := by
  unfold lenCursorInv at h ⊢
  cases t with
  | runCall =>
      simp only [runTask, runCallOp]
      split
      · exact h
      · rw [nextCall_fst_seq_results, nextCall_fst_seq_index]
        exact h
  | endEmpty =>
      simp only [runTask]
      rw [emit_seq_results, emit_seq_index]
      exact h
  | invokeStep =>
      simp only [runTask]
      split
      · exact h
      · exact h
  | settle o =>
      obtain ⟨hl, hi⟩ := runTask_settle_len_index m o
      rw [hl, hi]
      push_cast
      omega
  | advance =>
      simp only [runTask]
      split
      · rw [nextCall_fst_seq_results, nextCall_fst_seq_index]
        exact h
      · exact h
  | resumeTimer g =>
      simp only [runTask]
      split
      · split
        · rw [nextCall_fst_seq_results, nextCall_fst_seq_index]
          exact h
        · exact h
      · exact h

/-- Claim C1 as amended: the quiescence invariant `history.length ==
cursor` holds after construction, holds after `clear()`, and is preserved
by every event-loop task the engine processes (in particular by every
completed step, which appends one record and increments the cursor
together, with listeners unable to touch either) and by the public
mutations `append`, `stop` and `suspend`; but `go(n)` re-establishes it
exactly when the clamped target `min(n, steps.length)` equals the current
history length — any other jump, including every strict rewind after at
least one completed step, breaks the invariant even though the sequence
is quiescent.  A `go` with an absent target changes nothing. -/
theorem c1_quiescence_invariant :
    (∀ (steps : List Step) (opts : SequenceOptions) (hs : Handlers)
       (o : Outer), lenCursorInv (mkMachine steps opts hs o).seq) ∧
    (∀ (m : Machine) (t : Task), lenCursorInv m.seq →
       lenCursorInv (runTask m t).seq) ∧
    (∀ m : Machine, lenCursorInv m.seq → lenCursorInv (stopM m).seq) ∧
    (∀ m : Machine, lenCursorInv m.seq → lenCursorInv (suspendOp m).seq) ∧
    (∀ (new : List Step) (m : Machine), lenCursorInv m.seq →
       lenCursorInv (appendSteps new m).seq) ∧
    (∀ m : Machine, lenCursorInv (clearM m).seq) ∧
    (∀ (n : Int) (m : Machine),
       (lenCursorInv (goM (some n) m).seq ↔
        min n (m.seq.steps.length : Int) = (m.seq.results.length : Int))) ∧
    (∀ m : Machine, goM none m = m) := by
  refine ⟨?_, runTask_preserves_lenCursorInv, fun m h => h, fun m h => h,
          ?_, fun m => ?_, fun n m => ?_, fun m => rfl⟩
  · intro steps opts hs o
    unfold lenCursorInv mkMachine
    repeat' split
    all_goals
      by_cases hc : opts.emitEndIfEmpty.getD false = false <;>
        simp [hc, appendSteps_seq_results, appendSteps_seq_index, pushTask]
  · intro new m h
    unfold lenCursorInv at h ⊢
    rw [appendSteps_seq_results, appendSteps_seq_index]
    exact h
  · unfold lenCursorInv clearM clearSeq
    simp
  · simp only [lenCursorInv, goM, goSeq]
    rw [min_def]
    split_ifs <;> (constructor <;> (intro h2; omega))

/-- Claim C1 witness: the preservation clause applied to a concrete
machine (the freshly constructed empty sequence, where the invariant
holds as 0 = 0) and a concrete task. -/
theorem c1_witness : lenCursorInv (runTask (mkSeq []) .runCall).seq :=
  c1_quiescence_invariant.2.1 (mkSeq []) .runCall rfl

/-- Claim C1 counterexample: a one-step sequence whose step has completed
(history length 1) and whose cursor is then rewound by `go(0)`: the
machine is quiescent (`busy` false, no step in flight), yet the history
length is 1 while the cursor is 0 — the invariant does not survive a
`go` rewind. -/
theorem c1_counterexample :
    c1Rewound.seq.busy = false ∧
    c1Rewound.seq.results.length = 1 ∧
    c1Rewound.seq.index = 0 ∧
    ¬ lenCursorInv c1Rewound.seq := by
  refine ⟨by decide, by decide, by decide, ?_⟩
  unfold lenCursorInv
  decide

/-- Claim C7: corrected.  `go(n)` sets the cursor to
`min(n, steps.length)` — an upper clamp only; a negative target is stored
as-is, so the cursor is NOT clamped to stay at or above 0.  A `go` with
an absent/undefined target leaves the state unchanged, and `go` touches
nothing but the cursor. -/
theorem c7_go_clamp (n : Int) (s : SeqState) :
    (goSeq (some n) s).index = min n (s.steps.length : Int) ∧
    goSeq none s = s ∧
    (goSeq (some n) s).results = s.results ∧
    (goSeq (some n) s).steps = s.steps ∧
    (goSeq (some n) s).busy = s.busy ∧
    (goSeq (some n) s).running = s.running :=
  ⟨rfl, rfl, rfl, rfl, rfl, rfl⟩

/-- Claim C7 counterexample: on an empty fresh sequence, `go(-1)` stores
the cursor -1, strictly below 0 — refuting the claimed clamping to the
range `[0, steps.length]`. -/
theorem c7_counterexample :
    (goM (some (-1)) (mkSeq [])).seq.index = -1 ∧
    (goM (some (-1)) (mkSeq [])).seq.index < 0 := by
  constructor
  · rfl
  · decide

/-- Claim C8: corrected.  `stop()` unconditionally cancels a pending
resume timer and clears both `running` and `suspended`, leaving history,
cursor and steps unchanged; a cancelled timer task is inert when it
fires.  `clear()` however does NOT cancel the resume timer: it resets
steps, history, cursor, busy and the promise chain while leaving
`running`, `suspended` and the pending timer exactly as they were. -/
theorem c8_stop_clear_timer :
    (∀ s : SeqState,
      (stopSeq s).running = false ∧ (stopSeq s).suspended = false ∧
      (stopSeq s).suspendTimeout = false ∧
      (stopSeq s).results = s.results ∧ (stopSeq s).index = s.index ∧
      (stopSeq s).steps = s.steps ∧ (stopSeq s).busy = s.busy) ∧
    (∀ (m : Machine) (g : Nat), m.seq.suspendTimeout = false →
      runTask m (.resumeTimer g) = { m with tick := m.tick + 1 }) ∧
    (∀ s : SeqState,
      (clearSeq s).suspendTimeout = s.suspendTimeout ∧
      (clearSeq s).running = s.running ∧
      (clearSeq s).suspended = s.suspended ∧
      (clearSeq s).results = [] ∧ (clearSeq s).index = 0 ∧
      (clearSeq s).steps = [] ∧ (clearSeq s).busy = false) := by
  refine ⟨fun s => ⟨rfl, rfl, rfl, rfl, rfl, rfl, rfl⟩, ?_,
          fun s => ⟨rfl, rfl, rfl, rfl, rfl, rfl, rfl⟩⟩
  intro m g h
  simp [runTask, h]

/-- Claim C8 witness: the inert-timer clause applied to a concrete
machine with no pending timer. -/
theorem c8_witness :
    runTask (mkSeq []) (.resumeTimer 0) = { mkSeq [] with tick := 1 } :=
  c8_stop_clear_timer.2.1 (mkSeq []) 0 rfl

/-- Claim C8 counterexample: after `suspend()` then `clear()`, the resume
timer is still pending, and when it fires it actually drives the engine —
here it runs `next()` on the cleared (empty) queue and emits an `end`
event — so the scheduled resume is NOT inert after `clear()`. -/
theorem c8_counterexample :
    c8Cleared.seq.suspendTimeout = true ∧
    (drain 10 c8Cleared).log = [.endEv []] := by
  constructor
  · rfl
  · rfl

/-- Claim C9: confirmed.  Calling `next()` externally (`inner = false`)
while the sequence is running returns a rejected promise carrying the
`SequenceError` with `errno` 2 (the reentrancy error) and returns the
machine itself unchanged: no field of the engine state is altered, and
the rejection reaches only that caller. -/
theorem c9_reentrancy (m : Machine) (h : m.seq.running = true) :
    nextCall false m = (m, .rejectedError 2) := by
  unfold nextCall
  simp [h]

/-- Claim C9 witness: the reentrancy rejection on a concrete running
machine. -/
theorem c9_witness :
    nextCall false c9Running = (c9Running, .rejectedError 2) :=
  c9_reentrancy c9Running rfl

/-- Claim C2: confirmed.  A synchronous throw is coerced exactly like a
rejected awaitable, and for the two-step scenario (failing first step,
succeeding second) the throwing and the rejecting variants produce
identical histories, event logs, invocation traces and cursors: a Failed
record carrying the reason, the index and a timestamp is appended, a
`failed` notification is emitted, the continuation chain returned by
`next()` settles resolved with that record (it never rejects), and since
the sequence is still running the following step executes. -/
theorem c2_sync_throw_like_rejection :
    (∀ e : JSValue, coerceRet (.throwSync e) = coerceRet (.rejectAsync e)) ∧
    (drain 12 (c2Throw (.str "boom") (.num 2))).seq.results =
      (drain 12 (c2Reject (.str "boom") (.num 2))).seq.results ∧
    (drain 12 (c2Throw (.str "boom") (.num 2))).log =
      (drain 12 (c2Reject (.str "boom") (.num 2))).log ∧
    (drain 12 (c2Throw (.str "boom") (.num 2))).invoked =
      (drain 12 (c2Reject (.str "boom") (.num 2))).invoked ∧
    (drain 12 (c2Throw (.str "boom") (.num 2))).seq.index =
      (drain 12 (c2Reject (.str "boom") (.num 2))).seq.index ∧
    (drain 12 (c2Throw (.str "boom") (.num 2))).seq.results =
      [c2FailRec (.str "boom"), c2OkRec (.num 2)] ∧
    (drain 12 (c2Throw (.str "boom") (.num 2))).log =
      [.failed (c2FailRec (.str "boom")), .success (c2OkRec (.num 2)),
       .endEv [c2FailRec (.str "boom"), c2OkRec (.num 2)]] ∧
    (drain 12 (c2Throw (.str "boom") (.num 2))).invoked = [0, 1] ∧
    (drain 3 (c2Throw (.str "boom") (.num 2))).seq.promiseVal =
      .ok (some (c2FailRec (.str "boom"))) :=
  ⟨fun _ => rfl, by decide, by decide, by decide, by decide, by decide,
   by decide, by decide, rfl⟩

/-- Claim C3: confirmed.  `all([])` resolves immediately with an empty
history; and for `all([s1, s2, s3])` with `s2` rejecting, the outer
promise rejects with a history of exactly two records whose second has
status Failed, the sequence has been stopped, and `s3` is never
executed. -/
theorem c3_all_fail_fast :
    (∀ i : Option Nat, allComb [] i = .immediate (.resolved [])) ∧
    (∀ v1 e2 v3 : JSValue,
      allComb (c3Steps v1 e2 v3) none =
        .live (allMachine (c3Steps v1 e2 v3) none)) ∧
    ((c3Final (.num 1) (.str "e2") (.num 3)).outer =
      .rejected [c3Rec1 (.num 1), c3Rec2 (.str "e2")] ∧
     (c3Final (.num 1) (.str "e2") (.num 3)).seq.results =
      [c3Rec1 (.num 1), c3Rec2 (.str "e2")] ∧
     (c3Rec2 (.str "e2")).status = FAILED ∧
     (c3Final (.num 1) (.str "e2") (.num 3)).seq.running = false ∧
     (c3Final (.num 1) (.str "e2") (.num 3)).invoked = [0, 1] ∧
     (2 : Int) ∉ (c3Final (.num 1) (.str "e2") (.num 3)).invoked ∧
     (c3Final (.num 1) (.str "e2") (.num 3)).tasks = []) :=
  ⟨fun _ => rfl, fun _ _ _ => rfl,
   by decide, by decide, by decide, by decide, by decide, by decide,
   by decide⟩

/-- Claim C4: confirmed.  `any([])` rejects immediately; on the first
`success` event the outer promise resolves with a history ending in a
Succeeded record and the sequence is stopped, so the step after the
successful one never executes; and when `end` fires with no success the
outer promise rejects with the full history. -/
theorem c4_any_first_success :
    (∀ i : Option Nat, anyComb [] i = .immediate (.rejected [])) ∧
    ((c4Final (.str "e1") (.num 2) (.num 3)).outer =
      .resolved [c4Rec1 (.str "e1"), c4Rec2 (.num 2)] ∧
     (c4Final (.str "e1") (.num 2) (.num 3)).seq.results.getLast? =
      some (c4Rec2 (.num 2)) ∧
     (c4Rec2 (.num 2)).status = SUCCEEDED ∧
     (c4Final (.str "e1") (.num 2) (.num 3)).seq.running = false ∧
     (c4Final (.str "e1") (.num 2) (.num 3)).invoked = [0, 1] ∧
     (2 : Int) ∉ (c4Final (.str "e1") (.num 2) (.num 3)).invoked ∧
     (c4Final (.str "e1") (.num 2) (.num 3)).tasks = []) ∧
    ((c4NoSuccess (.str "e1") (.str "e2")).outer =
      .rejected [⟨FAILED, 0, none, some (.str "e1"), 3⟩,
                 ⟨FAILED, 1, none, some (.str "e2"), 6⟩] ∧
     (c4NoSuccess (.str "e1") (.str "e2")).seq.results =
      [⟨FAILED, 0, none, some (.str "e1"), 3⟩,
       ⟨FAILED, 1, none, some (.str "e2"), 6⟩] ∧
     (c4NoSuccess (.str "e1") (.str "e2")).log.getLast? =
      some (.endEv [⟨FAILED, 0, none, some (.str "e1"), 3⟩,
                    ⟨FAILED, 1, none, some (.str "e2"), 6⟩])) :=
  ⟨fun _ => rfl,
   ⟨by decide, by decide, by decide, by decide, by decide, by decide,
    by decide⟩,
   ⟨by decide, by decide, by decide⟩⟩

/-- Claim C5: the code contradicts it twice.  A sequence constructed with
an empty step list emits nothing synchronously (the notification is
deferred to the task queue), but with default options the drained
machine has emitted TWO `end` events with empty histories (one scheduled
by the constructor, a second by the auto-run's `next()` on the empty
queue), not exactly one; and constructing with `muteEndIfEmpty: true`
changes nothing — the constructor sets its mute flag from
`options.emitEndIfEmpty` (line 115), so the `muteEndIfEmpty` option is
ignored and it is `emitEndIfEmpty: true` that, despite its name,
suppresses every empty-queue `end` event. -/
theorem c5_empty_end_double_and_mute_ignored :
    (mkSeq []).log = [] ∧
    (mkSeq []).tasks = [.endEmpty, .runCall] ∧
    (drain 10 (mkSeq [])).log = [.endEv [], .endEv []] ∧
    (drain 10 (mkMachine [] ⟨none, some true, none, none⟩
        noHandlers .noOuter)).log = [.endEv [], .endEv []] ∧
    (drain 10 (mkMachine [] ⟨some true, none, none, none⟩
        noHandlers .noOuter)).log = [] :=
  ⟨by decide, by decide, by decide, by decide, by decide⟩

/-- Claim C6 counterexample: a two-step sequence is stopped while its
first step is in flight (`busy` is true and the history empty at the
moment of `stop()`); when the step's operation settles, its ResultRecord
IS appended to the history and a `success` notification IS emitted —
refuting the claim that the result is discarded with no record and no
notification. -/
theorem c6_counterexample :
    (c6Stopped (.num 1) (.num 2)).seq.busy = true ∧
    (c6Stopped (.num 1) (.num 2)).seq.results = [] ∧
    (c6Stopped (.num 1) (.num 2)).log = [] ∧
    (c6Final (.num 1) (.num 2)).seq.results = [c6Rec (.num 1)] ∧
    (c6Final (.num 1) (.num 2)).log = [.success (c6Rec (.num 1))] :=
  ⟨by decide, by decide, by decide, by decide, by decide⟩

/-- Claim C6 as amended: after `stop()` while a step is in flight, the
underlying operation is not cancelled and its result is NOT discarded:
when it settles, its ResultRecord is appended to the history and its
per-step notification is emitted as usual; what `stop()` suppresses is
only further advancement — the continuation leaves `running` false, no
subsequent step is ever invoked, and the task queue drains empty. -/
theorem c6_stop_inflight :
    (c6Stopped (.str "a") (.str "b")).seq.busy = true ∧
    (c6Stopped (.str "a") (.str "b")).seq.running = false ∧
    (c6Stopped (.str "a") (.str "b")).seq.results = [] ∧
    (c6Final (.str "a") (.str "b")).seq.results = [c6Rec (.str "a")] ∧
    (c6Final (.str "a") (.str "b")).log = [.success (c6Rec (.str "a"))] ∧
    (c6Final (.str "a") (.str "b")).invoked = [0] ∧
    (c6Final (.str "a") (.str "b")).seq.running = false ∧
    (c6Final (.str "a") (.str "b")).seq.busy = false ∧
    (c6Final (.str "a") (.str "b")).tasks = [] :=
  ⟨by decide, by decide, by decide, by decide, by decide, by decide,
   by decide, by decide, by decide⟩

/-- Claim C10: confirmed.  `append` preserves submission order at the
tail of the queue, and appending to a running sequence whose cursor has
reached the end of its queue (quiescent: empty task queue, not busy)
immediately wakes the engine — the machine is busy again with a step
invocation queued, and draining executes the newly appended step to a
Succeeded record without any further `run()` call. -/
theorem c10_append_wakes_exhausted (new : List Step) (m : Machine) :
    (appendSteps new m).seq.steps = m.seq.steps ++ new ∧
    (c10Quiescent (.num 1)).seq.running = true ∧
    (c10Quiescent (.num 1)).seq.busy = false ∧
    (c10Quiescent (.num 1)).seq.index = 1 ∧
    (c10Quiescent (.num 1)).seq.steps.length = 1 ∧
    (c10Quiescent (.num 1)).tasks = [] ∧
    (c10Quiescent (.num 1)).invoked = [0] ∧
    (c10Appended (.num 1) (.num 2)).seq.busy = true ∧
    (c10Appended (.num 1) (.num 2)).tasks = [.invokeStep] ∧
    (c10Final (.num 1) (.num 2)).invoked = [0, 1] ∧
    (c10Final (.num 1) (.num 2)).seq.results.length = 2 ∧
    (c10Final (.num 1) (.num 2)).seq.results.getLast? =
      some (c10Rec (.num 2)) ∧
    (c10Final (.num 1) (.num 2)).seq.index = 2 := by
  refine ⟨?_, by decide, by decide, by decide, by decide, by decide,
          by decide, by decide, by decide, by decide, by decide, by decide,
          by decide⟩
  simp only [appendSteps]
  split
  · rw [nextCall_fst_seq_steps]
  · rfl

end Sequencer
